import Mathlib

/-!
Verification development for the pathfinder execution-layer excerpt.

The development shallowly embeds three source files:
* `crates/rpc/src/v05/method/get_transaction_status.rs` — the RPC
  `get_transaction_status` handler with its pending / database / gateway
  precedence logic;
* `crates/p2p_proto/src/receipt.rs` — the p2p receipt data model and its
  protobuf conversions;
* `crates/executor/src/lib.rs` — re-exports; the `Felt` byte conversions it
  re-exports are modelled from the specification.

Async/await, database handles and HTTP clients are modelled by explicit
function-valued fields of a context record; fallible operations return
`Except`.
-/

/-! ## Big-endian byte codec

`beBytesToNat` interprets a byte list as a big-endian natural number;
`natToBeBytes k n` produces the `k`-byte big-endian representation of `n`.
These model `Felt::from_be_bytes` / `Felt::to_be_bytes` arithmetic.
-/

def beBytesToNat (bs : List UInt8) : Nat :=
  bs.foldl (fun acc b => acc * 256 + b.toNat) 0

def natToBeBytes : Nat → Nat → List UInt8
  | 0, _ => []
  | k + 1, n => natToBeBytes k (n / 256) ++ [UInt8.ofNat (n % 256)]

theorem uint8_toNat_ofNat (n : Nat) : (UInt8.ofNat n).toNat = n % 256 := rfl

theorem uint8_toNat_lt (b : UInt8) : b.toNat < 256 := b.val.isLt

theorem uint8_ofNat_toNat (b : UInt8) : UInt8.ofNat b.toNat = b := by
  have h : (UInt8.ofNat b.toNat).toNat = b.toNat := by
    rw [uint8_toNat_ofNat, Nat.mod_eq_of_lt (uint8_toNat_lt b)]
  cases hb : UInt8.ofNat b.toNat
  cases b
  rw [hb] at h
  congr 1
  exact BitVec.eq_of_toNat_eq h

theorem beBytesToNat_append_singleton (xs : List UInt8) (b : UInt8) :
    beBytesToNat (xs ++ [b]) = beBytesToNat xs * 256 + b.toNat := by
  simp [beBytesToNat, List.foldl_append]

theorem natToBeBytes_length (k n : Nat) : (natToBeBytes k n).length = k := by
  induction k generalizing n with
  | zero => rfl
  | succ k ih => simp [natToBeBytes, ih]

theorem beBytesToNat_natToBeBytes (k n : Nat) (h : n < 256 ^ k) :
    beBytesToNat (natToBeBytes k n) = n := by
  induction k generalizing n with
  | zero =>
    simp [natToBeBytes, beBytesToNat]
    omega
  | succ k ih =>
    have hdiv : n / 256 < 256 ^ k := by
      rw [Nat.div_lt_iff_lt_mul (by norm_num)]
      calc n < 256 ^ (k + 1) := h
        _ = 256 ^ k * 256 := by ring
    rw [natToBeBytes, beBytesToNat_append_singleton, ih _ hdiv, uint8_toNat_ofNat]
    omega

theorem beBytesToNat_lt (bs : List UInt8) : beBytesToNat bs < 256 ^ bs.length := by
  induction bs using List.reverseRecOn with
  | nil => simp [beBytesToNat]
  | append_singleton xs b ih =>
    rw [beBytesToNat_append_singleton]
    have hb := uint8_toNat_lt b
    simp only [List.length_append, List.length_singleton, pow_succ]
    have h2 := mul_le_mul_right' (Nat.succ_le_of_lt ih) 256
    omega

theorem natToBeBytes_beBytesToNat (bs : List UInt8) :
    natToBeBytes bs.length (beBytesToNat bs) = bs := by
  induction bs using List.reverseRecOn with
  | nil => rfl
  | append_singleton xs b ih =>
    rw [beBytesToNat_append_singleton]
    simp only [List.length_append, List.length_singleton]
    rw [natToBeBytes]
    have hb := uint8_toNat_lt b
    have hdiv : (beBytesToNat xs * 256 + b.toNat) / 256 = beBytesToNat xs := by
      omega
    have hmod : (beBytesToNat xs * 256 + b.toNat) % 256 = b.toNat := by
      omega
    rw [hdiv, hmod, ih, uint8_ofNat_toNat]

/-! ## Felt

Modelled from the spec: the `Felt` type itself (crate `pathfinder_crypto`)
and the byte conversions re-exported by `crates/executor/src/lib.rs`
(`IntoFelt`, module `felt`) are not part of the excerpt. The spec describes
a "252-bit prime-field element" that "converts losslessly to/from 32-byte
big-endian arrays; conversion from an arbitrary byte array fails with
`OutOfRange` if the value ≥ the field modulus". The modulus is the STARK
field prime 2^251 + 17·2^192 + 1.
-/

def FELT_PRIME : Nat := 2 ^ 251 + 17 * 2 ^ 192 + 1

structure Felt where
  val : Nat
  isLt : val < FELT_PRIME

instance : DecidableEq Felt := fun a b =>
  if h : a.val = b.val then
    isTrue (by cases a; cases b; cases h; rfl)
  else
    isFalse (fun hh => h (congrArg Felt.val hh))

inductive FeltConversionError where
  | OutOfRange
  deriving DecidableEq

/-- Modelled from the spec: conversion from a 32-byte big-endian array,
failing with `OutOfRange` when the value is not below the field modulus. -/
def felt_from_be_bytes (bs : List UInt8) : Except FeltConversionError Felt :=
  if h : beBytesToNat bs < FELT_PRIME then .ok ⟨beBytesToNat bs, h⟩
  else .error .OutOfRange

/-- Modelled from the spec: lossless conversion to the 32-byte big-endian
array representing the field element. -/
def Felt.to_be_bytes (f : Felt) : List UInt8 :=
  natToBeBytes 32 f.val

theorem FELT_PRIME_lt : FELT_PRIME < 256 ^ 32 := by
  decide

theorem felt_to_from (f : Felt) : beBytesToNat f.to_be_bytes = f.val :=
  beBytesToNat_natToBeBytes 32 f.val (lt_trans f.isLt FELT_PRIME_lt)

/-! ## p2p receipt data model

Shallow embedding of `crates/p2p_proto/src/receipt.rs`. `H160` models
`primitive_types::H160` (a 20-byte Ethereum address); `Hash` models
`crate::common::Hash` (a felt newtype). Rust `u32` counters are modelled
as `Nat` (no arithmetic is performed on them).
-/

def H160 := { l : List UInt8 // l.length = 20 }

instance : DecidableEq H160 :=
  inferInstanceAs (DecidableEq { l : List UInt8 // l.length = 20 })

def H160.len_bytes : Nat := 20

/-- `H160::from_slice` panics unless the slice has exactly 20 bytes; the
panic is modelled as a proof obligation, so the function is only callable
where the length check has been established. -/
def H160.from_slice (l : List UInt8) (h : l.length = H160.len_bytes) : H160 :=
  ⟨l, h⟩

def H160.to_fixed_bytes (a : H160) : List UInt8 := a.val

structure Hash where
  val : Felt
  deriving DecidableEq

structure EthereumAddress where
  h160 : H160
  deriving DecidableEq

structure MessageToL1 where
  from_address : Felt
  payload : List Felt
  to_address : EthereumAddress
  deriving DecidableEq

structure BuiltinCounter where
  bitwise : Nat
  ecdsa : Nat
  ec_op : Nat
  pedersen : Nat
  range_check : Nat
  poseidon : Nat
  keccak : Nat
  output : Nat
  deriving DecidableEq

structure ExecutionResources where
  builtins : BuiltinCounter
  steps : Nat
  memory_holes : Nat
  deriving DecidableEq

structure ReceiptCommon where
  transaction_hash : Hash
  actual_fee : Felt
  messages_sent : List MessageToL1
  execution_resources : ExecutionResources
  revert_reason : String
  deriving DecidableEq

structure InvokeTransactionReceipt where
  common : ReceiptCommon
  deriving DecidableEq

structure L1HandlerTransactionReceipt where
  common : ReceiptCommon
  msg_hash : Hash
  deriving DecidableEq

structure DeclareTransactionReceipt where
  common : ReceiptCommon
  deriving DecidableEq

structure DeployTransactionReceipt where
  common : ReceiptCommon
  contract_address : Felt
  deriving DecidableEq

structure DeployAccountTransactionReceipt where
  common : ReceiptCommon
  contract_address : Felt
  deriving DecidableEq

inductive Receipt where
  | Invoke (r : InvokeTransactionReceipt)
  | Declare (r : DeclareTransactionReceipt)
  | Deploy (r : DeployTransactionReceipt)
  | DeployAccount (r : DeployAccountTransactionReceipt)
  | L1Handler (r : L1HandlerTransactionReceipt)
  deriving DecidableEq

/-! ## Protobuf message layer

Modelled from the spec and the prost conventions the source relies on: the
generated protobuf message types (`crate::proto::receipt::*`, from the
`.proto` files, which are outside the excerpt) carry nested messages as
`Option` fields, repeated fields as lists, and scalar fields plainly.
Field elements and hashes travel as big-endian byte vectors.
-/

namespace proto

structure Felt252 where
  elements : List UInt8
  deriving DecidableEq

structure HashMsg where
  elements : List UInt8
  deriving DecidableEq

structure EthereumAddressMsg where
  elements : List UInt8
  deriving DecidableEq

structure BuiltinCounterMsg where
  bitwise : Nat
  ecdsa : Nat
  ec_op : Nat
  pedersen : Nat
  range_check : Nat
  poseidon : Nat
  keccak : Nat
  output : Nat
  deriving DecidableEq

structure ExecutionResourcesMsg where
  builtins : Option BuiltinCounterMsg
  steps : Nat
  memory_holes : Nat
  deriving DecidableEq

structure MessageToL1Msg where
  from_address : Option Felt252
  payload : List Felt252
  to_address : Option EthereumAddressMsg
  deriving DecidableEq

structure CommonMsg where
  transaction_hash : Option HashMsg
  actual_fee : Option Felt252
  messages_sent : List MessageToL1Msg
  execution_resources : Option ExecutionResourcesMsg
  revert_reason : String
  deriving DecidableEq

structure InvokeMsg where
  common : Option CommonMsg
  deriving DecidableEq

structure L1HandlerMsg where
  common : Option CommonMsg
  msg_hash : Option HashMsg
  deriving DecidableEq

structure DeclareMsg where
  common : Option CommonMsg
  deriving DecidableEq

structure DeployMsg where
  common : Option CommonMsg
  contract_address : Option Felt252
  deriving DecidableEq

structure DeployAccountMsg where
  common : Option CommonMsg
  contract_address : Option Felt252
  deriving DecidableEq

/-- The `oneof type` payload of `proto::receipt::Receipt`. The deploy
variant is named `DeprecatedDeploy` on the wire. -/
inductive ReceiptType where
  | Invoke (r : InvokeMsg)
  | L1Handler (r : L1HandlerMsg)
  | Declare (r : DeclareMsg)
  | DeprecatedDeploy (r : DeployMsg)
  | DeployAccount (r : DeployAccountMsg)
  deriving DecidableEq

structure ReceiptMsg where
  type : Option ReceiptType
  deriving DecidableEq

end proto

/-! ## Protobuf conversions

`IoError` models `std::io::Error` as used by `TryFromProtobuf`;
`proto_field` models `crate::proto_field`, which unwraps an optional
message field or fails with `InvalidData` naming the field.
-/

inductive IoErrorKind where
  | InvalidData
  deriving DecidableEq

structure IoError where
  kind : IoErrorKind
  msg : String
  deriving DecidableEq

def proto_field {α : Type} (input : Option α) (field_name : String) :
    Except IoError α :=
  match input with
  | some v => .ok v
  | none => .error ⟨.InvalidData, "Missing field " ++ field_name⟩

/-- Modelled from the spec: the derived protobuf codec for `Felt` encodes
the 32-byte big-endian representation and decoding rejects values not
below the field modulus. -/
def Felt.to_protobuf (self : Felt) : proto.Felt252 :=
  ⟨self.to_be_bytes⟩

def Felt.try_from_protobuf (input : proto.Felt252) (field_name : String) :
    Except IoError Felt :=
  if h : beBytesToNat input.elements < FELT_PRIME then
    .ok ⟨beBytesToNat input.elements, h⟩
  else
    .error ⟨.InvalidData, "Invalid field element " ++ field_name⟩

def Hash.to_protobuf (self : Hash) : proto.HashMsg :=
  ⟨self.val.to_be_bytes⟩

def Hash.try_from_protobuf (input : proto.HashMsg) (field_name : String) :
    Except IoError Hash :=
  if h : beBytesToNat input.elements < FELT_PRIME then
    .ok ⟨⟨beBytesToNat input.elements, h⟩⟩
  else
    .error ⟨.InvalidData, "Invalid hash " ++ field_name⟩

def EthereumAddress.to_protobuf (self : EthereumAddress) :
    proto.EthereumAddressMsg :=
  ⟨self.h160.to_fixed_bytes⟩

def EthereumAddress.try_from_protobuf (input : proto.EthereumAddressMsg)
    (field_name : String) : Except IoError EthereumAddress :=
  if h : input.elements.length ≠ H160.len_bytes then
    .error ⟨.InvalidData, "Invalid length for Ethereum address " ++ field_name⟩
  else
    .ok ⟨H160.from_slice input.elements (not_ne_iff.mp h)⟩

/-- Models collecting `Result`s over a repeated protobuf field. -/
def mapTryFrom {α β : Type} (tf : α → String → Except IoError β)
    (l : List α) (field_name : String) : Except IoError (List β) :=
  match l with
  | [] => .ok []
  | x :: xs => do
    let v ← tf x field_name
    let vs ← mapTryFrom tf xs field_name
    return v :: vs

def BuiltinCounter.to_protobuf (self : BuiltinCounter) : proto.BuiltinCounterMsg :=
  ⟨self.bitwise, self.ecdsa, self.ec_op, self.pedersen, self.range_check,
    self.poseidon, self.keccak, self.output⟩

def BuiltinCounter.try_from_protobuf (input : proto.BuiltinCounterMsg)
    (_field_name : String) : Except IoError BuiltinCounter :=
  .ok ⟨input.bitwise, input.ecdsa, input.ec_op, input.pedersen,
    input.range_check, input.poseidon, input.keccak, input.output⟩

def ExecutionResources.to_protobuf (self : ExecutionResources) :
    proto.ExecutionResourcesMsg :=
  ⟨some self.builtins.to_protobuf, self.steps, self.memory_holes⟩

def ExecutionResources.try_from_protobuf (input : proto.ExecutionResourcesMsg)
    (field_name : String) : Except IoError ExecutionResources := do
  let builtins ← BuiltinCounter.try_from_protobuf
    (← proto_field input.builtins field_name) field_name
  return ⟨builtins, input.steps, input.memory_holes⟩

def MessageToL1.to_protobuf (self : MessageToL1) : proto.MessageToL1Msg :=
  ⟨some self.from_address.to_protobuf, self.payload.map Felt.to_protobuf,
    some self.to_address.to_protobuf⟩

def MessageToL1.try_from_protobuf (input : proto.MessageToL1Msg)
    (field_name : String) : Except IoError MessageToL1 := do
  let from_address ← Felt.try_from_protobuf
    (← proto_field input.from_address field_name) field_name
  let payload ← mapTryFrom Felt.try_from_protobuf input.payload field_name
  let to_address ← EthereumAddress.try_from_protobuf
    (← proto_field input.to_address field_name) field_name
  return ⟨from_address, payload, to_address⟩

def ReceiptCommon.to_protobuf (self : ReceiptCommon) : proto.CommonMsg :=
  ⟨some self.transaction_hash.to_protobuf, some self.actual_fee.to_protobuf,
    self.messages_sent.map MessageToL1.to_protobuf,
    some self.execution_resources.to_protobuf, self.revert_reason⟩

def ReceiptCommon.try_from_protobuf (input : proto.CommonMsg)
    (field_name : String) : Except IoError ReceiptCommon := do
  let transaction_hash ← Hash.try_from_protobuf
    (← proto_field input.transaction_hash field_name) field_name
  let actual_fee ← Felt.try_from_protobuf
    (← proto_field input.actual_fee field_name) field_name
  let messages_sent ← mapTryFrom MessageToL1.try_from_protobuf
    input.messages_sent field_name
  let execution_resources ← ExecutionResources.try_from_protobuf
    (← proto_field input.execution_resources field_name) field_name
  return ⟨transaction_hash, actual_fee, messages_sent, execution_resources,
    input.revert_reason⟩

def InvokeTransactionReceipt.to_protobuf (self : InvokeTransactionReceipt) :
    proto.InvokeMsg :=
  ⟨some self.common.to_protobuf⟩

def InvokeTransactionReceipt.try_from_protobuf (input : proto.InvokeMsg)
    (field_name : String) : Except IoError InvokeTransactionReceipt := do
  let common ← ReceiptCommon.try_from_protobuf
    (← proto_field input.common field_name) field_name
  return ⟨common⟩

def L1HandlerTransactionReceipt.to_protobuf (self : L1HandlerTransactionReceipt) :
    proto.L1HandlerMsg :=
  ⟨some self.common.to_protobuf, some self.msg_hash.to_protobuf⟩

def L1HandlerTransactionReceipt.try_from_protobuf (input : proto.L1HandlerMsg)
    (field_name : String) : Except IoError L1HandlerTransactionReceipt := do
  let common ← ReceiptCommon.try_from_protobuf
    (← proto_field input.common field_name) field_name
  let msg_hash ← Hash.try_from_protobuf
    (← proto_field input.msg_hash field_name) field_name
  return ⟨common, msg_hash⟩

def DeclareTransactionReceipt.to_protobuf (self : DeclareTransactionReceipt) :
    proto.DeclareMsg :=
  ⟨some self.common.to_protobuf⟩

def DeclareTransactionReceipt.try_from_protobuf (input : proto.DeclareMsg)
    (field_name : String) : Except IoError DeclareTransactionReceipt := do
  let common ← ReceiptCommon.try_from_protobuf
    (← proto_field input.common field_name) field_name
  return ⟨common⟩

def DeployTransactionReceipt.to_protobuf (self : DeployTransactionReceipt) :
    proto.DeployMsg :=
  ⟨some self.common.to_protobuf, some self.contract_address.to_protobuf⟩

def DeployTransactionReceipt.try_from_protobuf (input : proto.DeployMsg)
    (field_name : String) : Except IoError DeployTransactionReceipt := do
  let common ← ReceiptCommon.try_from_protobuf
    (← proto_field input.common field_name) field_name
  let contract_address ← Felt.try_from_protobuf
    (← proto_field input.contract_address field_name) field_name
  return ⟨common, contract_address⟩

def DeployAccountTransactionReceipt.to_protobuf
    (self : DeployAccountTransactionReceipt) : proto.DeployAccountMsg :=
  ⟨some self.common.to_protobuf, some self.contract_address.to_protobuf⟩

def DeployAccountTransactionReceipt.try_from_protobuf
    (input : proto.DeployAccountMsg) (field_name : String) :
    Except IoError DeployAccountTransactionReceipt := do
  let common ← ReceiptCommon.try_from_protobuf
    (← proto_field input.common field_name) field_name
  let contract_address ← Felt.try_from_protobuf
    (← proto_field input.contract_address field_name) field_name
  return ⟨common, contract_address⟩

/-- `impl ToProtobuf for Receipt` (receipt.rs lines 164-179): the `Deploy`
variant is emitted as the wire's `DeprecatedDeploy` arm. -/
def Receipt.to_protobuf (self : Receipt) : proto.ReceiptMsg :=
  ⟨some (match self with
    | Receipt.Invoke r => proto.ReceiptType.Invoke r.to_protobuf
    | Receipt.Declare r => proto.ReceiptType.Declare r.to_protobuf
    | Receipt.Deploy r => proto.ReceiptType.DeprecatedDeploy r.to_protobuf
    | Receipt.DeployAccount r => proto.ReceiptType.DeployAccount r.to_protobuf
    | Receipt.L1Handler r => proto.ReceiptType.L1Handler r.to_protobuf)⟩

/-- `impl TryFromProtobuf for Receipt` (receipt.rs lines 143-162): the
wire's `DeprecatedDeploy` arm decodes to the `Deploy` variant. -/
def Receipt.try_from_protobuf (input : proto.ReceiptMsg)
    (field_name : String) : Except IoError Receipt := do
  match ← proto_field input.type field_name with
  | proto.ReceiptType.Invoke r =>
    return Receipt.Invoke (← InvokeTransactionReceipt.try_from_protobuf r field_name)
  | proto.ReceiptType.L1Handler r =>
    return Receipt.L1Handler (← L1HandlerTransactionReceipt.try_from_protobuf r field_name)
  | proto.ReceiptType.Declare r =>
    return Receipt.Declare (← DeclareTransactionReceipt.try_from_protobuf r field_name)
  | proto.ReceiptType.DeprecatedDeploy r =>
    return Receipt.Deploy (← DeployTransactionReceipt.try_from_protobuf r field_name)
  | proto.ReceiptType.DeployAccount r =>
    return Receipt.DeployAccount (← DeployAccountTransactionReceipt.try_from_protobuf r field_name)

/-! ## Round-trip lemmas for the protobuf conversions -/

theorem proto_field_some {α : Type} (v : α) (field_name : String) :
    proto_field (some v) field_name = .ok v := rfl

theorem felt_try_from_to_protobuf (f : Felt) (field_name : String) :
    Felt.try_from_protobuf (Felt.to_protobuf f) field_name = .ok f := by
  unfold Felt.try_from_protobuf Felt.to_protobuf
  cases f with
  | mk v hv =>
    simp only [Felt.to_be_bytes, felt_to_from]
    simp only [beBytesToNat_natToBeBytes 32 v (lt_trans hv FELT_PRIME_lt)]
    rw [dif_pos hv]

theorem hash_try_from_to_protobuf (h : Hash) (field_name : String) :
    Hash.try_from_protobuf (Hash.to_protobuf h) field_name = .ok h := by
  unfold Hash.try_from_protobuf Hash.to_protobuf
  cases h with
  | mk f =>
    cases f with
    | mk v hv =>
      simp only [Felt.to_be_bytes]
      simp only [beBytesToNat_natToBeBytes 32 v (lt_trans hv FELT_PRIME_lt)]
      rw [dif_pos hv]

theorem ethereum_address_try_from_to_protobuf (a : EthereumAddress) (field_name : String) :
    EthereumAddress.try_from_protobuf (EthereumAddress.to_protobuf a) field_name
      = .ok a := by
  unfold EthereumAddress.try_from_protobuf EthereumAddress.to_protobuf
  cases a with
  | mk h160 =>
    cases h160 with
    | mk l hl =>
      have hlen : (H160.to_fixed_bytes ⟨l, hl⟩).length = H160.len_bytes := hl
      rw [dif_neg (not_ne_iff.mpr hlen)]
      rfl

theorem mapTryFrom_round {α β : Type} (tf : β → String → Except IoError α)
    (enc : α → β) (l : List α) (field_name : String)
    (h : ∀ a, tf (enc a) field_name = .ok a) :
    mapTryFrom tf (l.map enc) field_name = .ok l := by
  induction l with
  | nil => rfl
  | cons x xs ih =>
    simp only [List.map_cons, mapTryFrom, h x, ih]
    rfl

theorem builtin_counter_try_from_to_protobuf (b : BuiltinCounter) (field_name : String) :
    BuiltinCounter.try_from_protobuf (BuiltinCounter.to_protobuf b) field_name
      = .ok b := rfl

theorem execution_resources_try_from_to_protobuf (r : ExecutionResources)
    (field_name : String) :
    ExecutionResources.try_from_protobuf (ExecutionResources.to_protobuf r)
      field_name = .ok r := rfl


theorem except_bind_ok {ε α β : Type} (x : α) (f : α → Except ε β) :
    (Except.ok x : Except ε α) >>= f = f x := rfl

theorem except_pure_eq {ε α : Type} (x : α) :
    (pure x : Except ε α) = Except.ok x := rfl

theorem message_to_l1_try_from_to_protobuf (m : MessageToL1) (field_name : String) :
    MessageToL1.try_from_protobuf (MessageToL1.to_protobuf m) field_name
      = .ok m := by
  have hp := mapTryFrom_round Felt.try_from_protobuf Felt.to_protobuf
    m.payload field_name (fun a => felt_try_from_to_protobuf a field_name)
  simp [MessageToL1.try_from_protobuf, MessageToL1.to_protobuf,
    proto_field_some, felt_try_from_to_protobuf, ethereum_address_try_from_to_protobuf, hp,
    except_bind_ok, except_pure_eq]

theorem receipt_common_try_from_to_protobuf (c : ReceiptCommon) (field_name : String) :
    ReceiptCommon.try_from_protobuf (ReceiptCommon.to_protobuf c) field_name
      = .ok c := by
  have hp := mapTryFrom_round MessageToL1.try_from_protobuf
    MessageToL1.to_protobuf c.messages_sent field_name
    (fun a => message_to_l1_try_from_to_protobuf a field_name)
  simp [ReceiptCommon.try_from_protobuf, ReceiptCommon.to_protobuf,
    proto_field_some, hash_try_from_to_protobuf, felt_try_from_to_protobuf,
    execution_resources_try_from_to_protobuf, hp, except_bind_ok, except_pure_eq]

theorem invoke_receipt_try_from_to_protobuf (r : InvokeTransactionReceipt)
    (field_name : String) :
    InvokeTransactionReceipt.try_from_protobuf
      (InvokeTransactionReceipt.to_protobuf r) field_name = .ok r := by
  simp [InvokeTransactionReceipt.try_from_protobuf,
    InvokeTransactionReceipt.to_protobuf, proto_field_some,
    receipt_common_try_from_to_protobuf, except_bind_ok, except_pure_eq]

theorem l1_handler_receipt_try_from_to_protobuf
    (r : L1HandlerTransactionReceipt) (field_name : String) :
    L1HandlerTransactionReceipt.try_from_protobuf
      (L1HandlerTransactionReceipt.to_protobuf r) field_name = .ok r := by
  simp [L1HandlerTransactionReceipt.try_from_protobuf,
    L1HandlerTransactionReceipt.to_protobuf, proto_field_some,
    receipt_common_try_from_to_protobuf, hash_try_from_to_protobuf, except_bind_ok,
    except_pure_eq]

theorem declare_receipt_try_from_to_protobuf (r : DeclareTransactionReceipt)
    (field_name : String) :
    DeclareTransactionReceipt.try_from_protobuf
      (DeclareTransactionReceipt.to_protobuf r) field_name = .ok r := by
  simp [DeclareTransactionReceipt.try_from_protobuf,
    DeclareTransactionReceipt.to_protobuf, proto_field_some,
    receipt_common_try_from_to_protobuf, except_bind_ok, except_pure_eq]

theorem deploy_receipt_try_from_to_protobuf (r : DeployTransactionReceipt)
    (field_name : String) :
    DeployTransactionReceipt.try_from_protobuf
      (DeployTransactionReceipt.to_protobuf r) field_name = .ok r := by
  simp [DeployTransactionReceipt.try_from_protobuf,
    DeployTransactionReceipt.to_protobuf, proto_field_some,
    receipt_common_try_from_to_protobuf, felt_try_from_to_protobuf, except_bind_ok,
    except_pure_eq]

theorem deploy_account_receipt_try_from_to_protobuf
    (r : DeployAccountTransactionReceipt) (field_name : String) :
    DeployAccountTransactionReceipt.try_from_protobuf
      (DeployAccountTransactionReceipt.to_protobuf r) field_name = .ok r := by
  simp [DeployAccountTransactionReceipt.try_from_protobuf,
    DeployAccountTransactionReceipt.to_protobuf, proto_field_some,
    receipt_common_try_from_to_protobuf, felt_try_from_to_protobuf, except_bind_ok,
    except_pure_eq]

theorem receipt_try_from_to_protobuf (r : Receipt) (field_name : String) :
    Receipt.try_from_protobuf (Receipt.to_protobuf r) field_name = .ok r := by
  cases r <;>
    simp [Receipt.try_from_protobuf, Receipt.to_protobuf, proto_field_some,
      invoke_receipt_try_from_to_protobuf, declare_receipt_try_from_to_protobuf,
      deploy_receipt_try_from_to_protobuf,
      deploy_account_receipt_try_from_to_protobuf,
      l1_handler_receipt_try_from_to_protobuf, except_bind_ok, except_pure_eq]

/-! ## RPC v05 get_transaction_status

Shallow embedding of
`crates/rpc/src/v05/method/get_transaction_status.rs`. The async context
(`RpcContext`) is modelled as a record of function-valued capabilities:
the in-memory pending snapshot, the two database point queries run inside
the `spawn_blocking` closure, and the gateway client. Database and
gateway failures (`anyhow` / gateway errors) are modelled as `Except`
with a `String` message.

The gateway status enums (`starknet_gateway_types::reply`) are outside
the excerpt; their variant sets are recovered exactly from the exhaustive
matches in this file (lines 40-47, 62-65 and 134-151).
-/

inductive FinalityStatus where
  | Received
  | Rejected
  | AcceptedOnL1
  | AcceptedOnL2
  deriving DecidableEq

inductive ExecutionStatus where
  | Succeeded
  | Reverted
  deriving DecidableEq

structure GetTransactionStatusOutput where
  finality_status : FinalityStatus
  /-- Not present for received or rejected transactions. -/
  execution_status : Option ExecutionStatus
  deriving DecidableEq

/-- `starknet_gateway_types::reply::transaction_status::FinalityStatus`
(the alias `GatewayFinalityStatus` in the source). -/
inductive GatewayFinalityStatus where
  | NotReceived
  | Received
  | AcceptedOnL1
  | AcceptedOnL2
  deriving DecidableEq

/-- `starknet_gateway_types::reply::transaction_status::ExecutionStatus`
(the alias `GatewayExecutionStatus` in the source). -/
inductive GatewayExecutionStatus where
  | Succeeded
  | Reverted
  | Rejected
  deriving DecidableEq

/-- `starknet_gateway_types::reply::transaction::ExecutionStatus`, the
execution status recorded on receipts (pending block and database). -/
inductive ReceiptExecutionStatus where
  | Succeeded
  | Reverted
  deriving DecidableEq

/-- `impl TryFrom<GatewayFinalityStatus> for FinalityStatus`
(lines 33-49): `NotReceived` is an error. -/
def FinalityStatus.try_from (value : GatewayFinalityStatus) :
    Except String FinalityStatus :=
  match value with
  | .NotReceived => .error "Transaction not received by the gateway"
  | .Received => .ok .Received
  | .AcceptedOnL1 => .ok .AcceptedOnL1
  | .AcceptedOnL2 => .ok .AcceptedOnL2

/-- `impl From<ReceiptExecutionStatus> for ExecutionStatus` (lines 59-67). -/
def ExecutionStatus.of_receipt (value : ReceiptExecutionStatus) :
    ExecutionStatus :=
  match value with
  | .Succeeded => .Succeeded
  | .Reverted => .Reverted

abbrev TransactionHash := Felt

abbrev BlockHash := Felt

/-- One entry of the pending block's `transaction_receipts`; only the
fields the handler reads are modelled. -/
structure PendingReceipt where
  transaction_hash : TransactionHash
  execution_status : ReceiptExecutionStatus

structure PendingBlock where
  transaction_receipts : List PendingReceipt

/-- `PendingData`: `block()` yields the snapshot's block when one is set. -/
structure PendingData where
  block : Option PendingBlock

/-- The receipt row returned by `transaction_with_receipt`; only the
execution status is read by the handler. -/
structure DbReceipt where
  execution_status : ReceiptExecutionStatus

/-- The gateway's `transaction(hash)` reply: a finality and an execution
status. -/
structure GatewayTxStatus where
  finality_status : GatewayFinalityStatus
  execution_status : GatewayExecutionStatus

/-- `RpcContext`, narrowed to the capabilities this handler uses.
`db_lookup` models `transaction_with_receipt`, `block_is_l1_accepted` the
block-status query, `sequencer` the gateway client; each returns
`Except String` for the I/O failure the corresponding Rust call may
produce. -/
structure RpcContext where
  pending_data : Option PendingData
  db_lookup : TransactionHash → Except String (Option (DbReceipt × BlockHash))
  block_is_l1_accepted : BlockHash → Except String Bool
  sequencer : TransactionHash → Except String GatewayTxStatus

/-- `generate_rpc_error_subset!(GetTransactionStatusError:
TxnHashNotFoundV04)`: the named subset variant plus the implicit
`Internal` variant that absorbs `anyhow` errors. -/
inductive GetTransactionStatusError where
  | TxnHashNotFoundV04
  | Internal (msg : String)
  deriving DecidableEq

/-- `pending_status` (lines 156-176): scan the pending block's receipts
for the hash; a hit always reports `AcceptedOnL2` plus the receipt's
execution status. -/
def pending_status (pending : PendingData) (tx_hash : TransactionHash) :
    Option GetTransactionStatusOutput :=
  (pending.block.map fun block =>
    block.transaction_receipts.findSome? fun rx =>
      if rx.transaction_hash = tx_hash then
        some { finality_status := FinalityStatus.AcceptedOnL2,
               execution_status := some (ExecutionStatus.of_receipt rx.execution_status) }
      else
        none).getD none

/-- The `spawn_blocking` database closure (lines 85-117): a found receipt
yields `AcceptedOnL1`/`AcceptedOnL2` according to the block's L1 status,
always with an execution status; database failures surface as `Internal`. -/
def db_transaction_status (context : RpcContext)
    (transaction_hash : TransactionHash) :
    Except GetTransactionStatusError (Option GetTransactionStatusOutput) :=
  match context.db_lookup transaction_hash with
  | .error e => .error (.Internal e)
  | .ok none => .ok none
  | .ok (some (receipt, block_hash)) =>
    match context.block_is_l1_accepted block_hash with
    | .error e => .error (.Internal e)
    | .ok l1_accepted =>
      .ok (some { finality_status :=
                    if l1_accepted then FinalityStatus.AcceptedOnL1
                    else FinalityStatus.AcceptedOnL2,
                  execution_status :=
                    some (ExecutionStatus.of_receipt receipt.execution_status) })

/-- The `and_then` closure over the gateway reply (lines 130-152),
matching `(finality_status, execution_status)` in source order. -/
def gateway_status_output (tx : GatewayTxStatus) :
    Except String GetTransactionStatusOutput :=
  match tx.finality_status, tx.execution_status with
  | _, GatewayExecutionStatus.Rejected =>
    .ok { finality_status := .Rejected, execution_status := none }
  | GatewayFinalityStatus.Received, _ =>
    .ok { finality_status := .Received, execution_status := none }
  | f, GatewayExecutionStatus.Reverted =>
    (FinalityStatus.try_from f).map fun fs =>
      { finality_status := fs, execution_status := some .Reverted }
  | f, GatewayExecutionStatus.Succeeded =>
    (FinalityStatus.try_from f).map fun fs =>
      { finality_status := fs, execution_status := some .Succeeded }

/-- The gateway fallback (lines 123-153): any request failure or reply
the conversion rejects is collapsed to `TxnHashNotFoundV04` by
`map_err`. -/
def gateway_fallback (context : RpcContext)
    (transaction_hash : TransactionHash) :
    Except GetTransactionStatusError GetTransactionStatusOutput :=
  match context.sequencer transaction_hash with
  | .error _ => .error .TxnHashNotFoundV04
  | .ok tx =>
    match gateway_status_output tx with
    | .ok out => .ok out
    | .error _ => .error .TxnHashNotFoundV04

/-- `get_transaction_status` (lines 71-154): pending snapshot first, then
the database, then the gateway. -/
def get_transaction_status (context : RpcContext)
    (input : TransactionHash) :
    Except GetTransactionStatusError GetTransactionStatusOutput :=
  match context.pending_data.bind (fun pending => pending_status pending input) with
  | some status => .ok status
  | none =>
    match db_transaction_status context input with
    | .error e => .error e
    | .ok (some db_status) => .ok db_status
    | .ok none => gateway_fallback context input

/-! ## Shape lemmas for the three status sources -/

theorem pending_status_shape (pending : PendingData)
    (tx_hash : TransactionHash) (s : GetTransactionStatusOutput)
    (h : pending_status pending tx_hash = some s) :
    s.finality_status = .AcceptedOnL2 ∧ ∃ e, s.execution_status = some e := by
  unfold pending_status at h
  cases hb : pending.block with
  | none =>
    rw [hb] at h
    exact Option.noConfusion h
  | some block =>
    rw [hb] at h
    replace h : (block.transaction_receipts.findSome? fun rx =>
        if rx.transaction_hash = tx_hash then
          some { finality_status := FinalityStatus.AcceptedOnL2,
                 execution_status :=
                   some (ExecutionStatus.of_receipt rx.execution_status) }
        else none) = some s := h
    generalize block.transaction_receipts = l at h
    induction l with
    | nil => exact Option.noConfusion h
    | cons rx rest ih =>
      rw [List.findSome?_cons] at h
      by_cases hc : rx.transaction_hash = tx_hash
      · simp only [hc, if_pos rfl] at h
        cases h
        exact ⟨rfl, _, rfl⟩
      · rw [if_neg hc] at h
        exact ih h

theorem db_transaction_status_shape (context : RpcContext)
    (input : TransactionHash) (s : GetTransactionStatusOutput)
    (h : db_transaction_status context input = .ok (some s)) :
    (s.finality_status = .AcceptedOnL1 ∨ s.finality_status = .AcceptedOnL2) ∧
      ∃ e, s.execution_status = some e := by
  unfold db_transaction_status at h
  split at h
  · cases h
  · cases h
  · rename_i receipt block_hash heq
    cases hl1 : context.block_is_l1_accepted block_hash with
    | error e =>
      rw [hl1] at h
      exact Except.noConfusion h
    | ok l1_accepted =>
      rw [hl1] at h
      replace h : (Except.ok (some
          { finality_status :=
              if l1_accepted = true then FinalityStatus.AcceptedOnL1
              else FinalityStatus.AcceptedOnL2,
            execution_status :=
              some (ExecutionStatus.of_receipt receipt.execution_status) }) :
          Except GetTransactionStatusError (Option GetTransactionStatusOutput))
        = Except.ok (some s) := h
      simp only [Except.ok.injEq, Option.some.injEq] at h
      subst h
      cases l1_accepted <;> simp

theorem gateway_status_output_shape (tx : GatewayTxStatus)
    (s : GetTransactionStatusOutput)
    (h : gateway_status_output tx = .ok s) :
    (s.execution_status = none ↔
      s.finality_status = .Received ∨ s.finality_status = .Rejected) := by
  obtain ⟨f, e⟩ := tx
  cases f <;> cases e <;>
    simp [gateway_status_output, FinalityStatus.try_from, Except.map] at h <;>
    subst h <;> simp

theorem gateway_fallback_shape (context : RpcContext)
    (input : TransactionHash) (s : GetTransactionStatusOutput)
    (h : gateway_fallback context input = .ok s) :
    (s.execution_status = none ↔
      s.finality_status = .Received ∨ s.finality_status = .Rejected) := by
  unfold gateway_fallback at h
  split at h
  · cases h
  · rename_i tx _
    split at h
    · cases h
      exact gateway_status_output_shape tx s (by assumption)
    · cases h

theorem get_transaction_status_pending_hit (context : RpcContext)
    (input : TransactionHash) (p : PendingData)
    (s : GetTransactionStatusOutput) (hp : context.pending_data = some p)
    (hs : pending_status p input = some s) :
    get_transaction_status context input = .ok s := by
  unfold get_transaction_status
  rw [hp, Option.some_bind, hs]

theorem get_transaction_status_pending_miss (context : RpcContext)
    (input : TransactionHash)
    (h : context.pending_data.bind (fun pending => pending_status pending input)
      = none) :
    get_transaction_status context input =
      match db_transaction_status context input with
      | .error e => .error e
      | .ok (some db_status) => .ok db_status
      | .ok none => gateway_fallback context input := by
  unfold get_transaction_status
  rw [h]

/-! ## Concrete sample values -/

def feltZero : Felt := ⟨0, by decide⟩

def feltOne : Felt := ⟨1, by decide⟩

def hashZero : Hash := ⟨feltZero⟩

def builtinsZero : BuiltinCounter := ⟨0, 0, 0, 0, 0, 0, 0, 0⟩

def resourcesZero : ExecutionResources := ⟨builtinsZero, 0, 0⟩

def sampleCommon (revert_reason : String) : ReceiptCommon :=
  ⟨hashZero, feltZero, [], resourcesZero, revert_reason⟩

/-- A context whose only data source is the gateway. -/
def gwOnlyContext (st : GatewayTxStatus) : RpcContext :=
  { pending_data := none
  , db_lookup := fun _ => .ok none
  , block_is_l1_accepted := fun _ => .ok false
  , sequencer := fun _ => .ok st }

/-- A context whose pending block holds one succeeded receipt for hash 0,
and whose database and gateway always fail. -/
def pendingOnlyContext : RpcContext :=
  { pending_data := some ⟨some ⟨[⟨feltZero, .Succeeded⟩]⟩⟩
  , db_lookup := fun _ => .error "db unavailable"
  , block_is_l1_accepted := fun _ => .error "db unavailable"
  , sequencer := fun _ => .error "gateway unavailable" }

/-- A context with no pending data whose database holds one reverted
receipt in a block that is not L1-accepted. -/
def dbRevertContext : RpcContext :=
  { pending_data := none
  , db_lookup := fun _ => .ok (some (⟨.Reverted⟩, feltZero))
  , block_is_l1_accepted := fun _ => .ok false
  , sequencer := fun _ => .error "gateway unavailable" }

/-! ## Claim theorems: get_transaction_status (C1-C4) -/

/-- C1 counterexample: a gateway reply reporting reverted execution with
`NotReceived` finality is surfaced by `get_transaction_status` as the
`TxnHashNotFoundV04` error variant, not as an `Ok` output carrying
`Some(Reverted)` — contradicting "a revert is never surfaced as an error
variant of GetTransactionStatusError". -/
theorem revert_from_gateway_surfaced_as_error :
    (gwOnlyContext ⟨.NotReceived, .Reverted⟩).sequencer feltZero
        = .ok ⟨.NotReceived, .Reverted⟩ ∧
      get_transaction_status (gwOnlyContext ⟨.NotReceived, .Reverted⟩) feltZero
        = .error .TxnHashNotFoundV04 :=
  ⟨rfl, rfl⟩

/-- C1 (amended): a reverted execution surfaces as an `Ok` output carrying
`Some(Reverted)` from the pending block and from the database receipt
unconditionally, and from the gateway reply whenever the reported finality
is `AcceptedOnL1` or `AcceptedOnL2`; a gateway `(NotReceived, Reverted)`
reply instead yields `TxnHashNotFoundV04` and a `(Received, Reverted)`
reply yields `Received` with no execution status. -/
theorem revert_reported_as_ok (context : RpcContext) (input : TransactionHash) :
    (∀ p, context.pending_data = some p →
      pending_status p input =
        some { finality_status := .AcceptedOnL2,
               execution_status := some .Reverted } →
      get_transaction_status context input =
        .ok { finality_status := .AcceptedOnL2,
              execution_status := some .Reverted }) ∧
    (context.pending_data.bind (fun pending => pending_status pending input)
        = none →
      ∀ (receipt : DbReceipt) (block_hash : BlockHash) (l1 : Bool),
        context.db_lookup input = .ok (some (receipt, block_hash)) →
        receipt.execution_status = .Reverted →
        context.block_is_l1_accepted block_hash = .ok l1 →
        get_transaction_status context input =
          .ok { finality_status :=
                  if l1 then .AcceptedOnL1 else .AcceptedOnL2,
                execution_status := some .Reverted }) ∧
    (context.pending_data.bind (fun pending => pending_status pending input)
        = none →
      context.db_lookup input = .ok none →
      ∀ f, context.sequencer input = .ok ⟨f, .Reverted⟩ →
        (f = .AcceptedOnL1 ∨ f = .AcceptedOnL2) →
        ∃ fs, FinalityStatus.try_from f = .ok fs ∧
          get_transaction_status context input =
            .ok { finality_status := fs,
                  execution_status := some .Reverted }) := by
  refine ⟨?_, ?_, ?_⟩
  · intro p hp hs
    exact get_transaction_status_pending_hit context input p _ hp hs
  · intro hmiss receipt block_hash l1 hdb hrev hl1
    rw [get_transaction_status_pending_miss context input hmiss]
    have hdbs : db_transaction_status context input =
        .ok (some { finality_status :=
                      if l1 then .AcceptedOnL1 else .AcceptedOnL2,
                    execution_status := some .Reverted }) := by
      unfold db_transaction_status
      rw [hdb]
      simp only [hl1, hrev, ExecutionStatus.of_receipt]
    rw [hdbs]
  · intro hmiss hdb f hseq hf
    have hdbs : db_transaction_status context input = .ok none := by
      unfold db_transaction_status
      rw [hdb]
    have hget : get_transaction_status context input
        = gateway_fallback context input := by
      rw [get_transaction_status_pending_miss context input hmiss, hdbs]
    rcases hf with rfl | rfl
    · exact ⟨.AcceptedOnL1, rfl, by
        rw [hget]
        simp [gateway_fallback, hseq, gateway_status_output,
          FinalityStatus.try_from, Except.map]⟩
    · exact ⟨.AcceptedOnL2, rfl, by
        rw [hget]
        simp [gateway_fallback, hseq, gateway_status_output,
          FinalityStatus.try_from, Except.map]⟩

/-- C1 witness: the amended theorem applied to a concrete database-backed
reverted transaction. -/
theorem revert_reported_as_ok_witness :
    get_transaction_status dbRevertContext feltOne =
      .ok { finality_status :=
              if false then .AcceptedOnL1 else .AcceptedOnL2,
            execution_status := some .Reverted } :=
  (revert_reported_as_ok dbRevertContext feltOne).2.1 rfl ⟨.Reverted⟩ feltZero
    false rfl rfl rfl

/-- C2: `get_transaction_status` consults sources in fixed precedence
order: a pending hit is returned as-is (always `AcceptedOnL2`) for any
database and gateway whatsoever; on a pending miss a found database
result is returned; the gateway is consulted only when both miss. -/
theorem get_transaction_status_precedence (context : RpcContext)
    (input : TransactionHash) :
    (∀ p s, context.pending_data = some p →
      pending_status p input = some s →
      s.finality_status = .AcceptedOnL2 ∧
      ∀ db l1a gw,
        get_transaction_status
          { pending_data := context.pending_data, db_lookup := db,
            block_is_l1_accepted := l1a, sequencer := gw } input = .ok s) ∧
    (context.pending_data.bind (fun pending => pending_status pending input)
        = none →
      ∀ s, db_transaction_status context input = .ok (some s) →
        get_transaction_status context input = .ok s) ∧
    (context.pending_data.bind (fun pending => pending_status pending input)
        = none →
      db_transaction_status context input = .ok none →
      get_transaction_status context input
        = gateway_fallback context input) := by
  refine ⟨?_, ?_, ?_⟩
  · intro p s hp hs
    refine ⟨(pending_status_shape p input s hs).1, fun db l1a gw => ?_⟩
    exact get_transaction_status_pending_hit _ input p s hp hs
  · intro hmiss s hdbs
    rw [get_transaction_status_pending_miss context input hmiss, hdbs]
  · intro hmiss hdbs
    rw [get_transaction_status_pending_miss context input hmiss, hdbs]

/-- C2 witness: a pending hit is served even though both the database and
the gateway of the context always fail. -/
theorem get_transaction_status_precedence_witness :
    get_transaction_status pendingOnlyContext feltZero =
      .ok { finality_status := .AcceptedOnL2,
            execution_status := some .Succeeded } :=
  ((get_transaction_status_precedence pendingOnlyContext feltZero).1
    ⟨some ⟨[⟨feltZero, .Succeeded⟩]⟩⟩
    { finality_status := .AcceptedOnL2, execution_status := some .Succeeded }
    rfl rfl).2 pendingOnlyContext.db_lookup
    pendingOnlyContext.block_is_l1_accepted pendingOnlyContext.sequencer

/-- C3: with both the pending block and the database missing the hash, the
gateway reply is classified per the source: a `Rejected` execution status
yields `Rejected` finality with no execution status regardless of the
reported finality; a `Received` finality (when the execution status is not
`Rejected`) yields `Received` with no execution status; a gateway request
failure, or a `NotReceived` finality combined with `Succeeded`/`Reverted`,
yields the `TxnHashNotFoundV04` error. -/
theorem gateway_fallback_classification (context : RpcContext)
    (input : TransactionHash)
    (hmiss : context.pending_data.bind
      (fun pending => pending_status pending input) = none)
    (hdb : context.db_lookup input = .ok none) :
    (∀ f, context.sequencer input = .ok ⟨f, .Rejected⟩ →
      get_transaction_status context input =
        .ok { finality_status := .Rejected, execution_status := none }) ∧
    (∀ e, context.sequencer input = .ok ⟨.Received, e⟩ → e ≠ .Rejected →
      get_transaction_status context input =
        .ok { finality_status := .Received, execution_status := none }) ∧
    (∀ err, context.sequencer input = .error err →
      get_transaction_status context input = .error .TxnHashNotFoundV04) ∧
    (∀ e, context.sequencer input = .ok ⟨.NotReceived, e⟩ →
      e = .Succeeded ∨ e = .Reverted →
      get_transaction_status context input = .error .TxnHashNotFoundV04) := by
  have hdbs : db_transaction_status context input = .ok none := by
    unfold db_transaction_status
    rw [hdb]
  have hget : get_transaction_status context input
      = gateway_fallback context input := by
    rw [get_transaction_status_pending_miss context input hmiss, hdbs]
  refine ⟨?_, ?_, ?_, ?_⟩
  · intro f hseq
    rw [hget]
    cases f <;>
      simp [gateway_fallback, hseq, gateway_status_output]
  · intro e hseq hne
    rw [hget]
    cases e with
    | Rejected => exact absurd rfl hne
    | Succeeded => simp [gateway_fallback, hseq, gateway_status_output]
    | Reverted => simp [gateway_fallback, hseq, gateway_status_output]
  · intro err hseq
    rw [hget]
    simp [gateway_fallback, hseq]
  · intro e hseq he
    rw [hget]
    rcases he with rfl | rfl <;>
      simp [gateway_fallback, hseq, gateway_status_output,
        FinalityStatus.try_from, Except.map]

/-- C3 witness: a gateway reply `(Received, Succeeded)` for a transaction
unknown to pending and database yields `Received` with no execution
status. -/
theorem gateway_fallback_classification_witness :
    get_transaction_status (gwOnlyContext ⟨.Received, .Succeeded⟩) feltZero =
      .ok { finality_status := .Received, execution_status := none } :=
  (gateway_fallback_classification (gwOnlyContext ⟨.Received, .Succeeded⟩)
    feltZero rfl rfl).2.1 .Succeeded rfl (by decide)

/-- C4: every `Ok` output of `get_transaction_status` satisfies the
invariant that the execution status is absent exactly when the finality
status is `Received` or `Rejected`. -/
theorem get_transaction_status_output_invariant (context : RpcContext)
    (input : TransactionHash) (s : GetTransactionStatusOutput)
    (h : get_transaction_status context input = .ok s) :
    s.execution_status = none ↔
      s.finality_status = .Received ∨ s.finality_status = .Rejected := by
  unfold get_transaction_status at h
  cases hpb : context.pending_data.bind
      (fun pending => pending_status pending input) with
  | some s' =>
    rw [hpb] at h
    cases h
    obtain ⟨p, hp, hs⟩ := Option.bind_eq_some.mp hpb
    obtain ⟨hf, e, he⟩ := pending_status_shape p input s hs
    rw [he, hf]
    simp
  | none =>
    rw [hpb] at h
    cases hdb : db_transaction_status context input with
    | error err =>
      rw [hdb] at h
      cases h
    | ok v =>
      rw [hdb] at h
      cases v with
      | some d =>
        replace h : Except.ok d = Except.ok s := h
        cases h
        obtain ⟨hfin, e, he⟩ := db_transaction_status_shape context input s hdb
        rw [he]
        rcases hfin with hf | hf <;> rw [hf] <;> simp
      | none =>
        replace h : gateway_fallback context input = .ok s := h
        exact gateway_fallback_shape context input s h

/-- C4 witness: the invariant instantiated at the `Rejected` output the
gateway produces for a rejected transaction. -/
theorem get_transaction_status_output_invariant_witness :
    (none : Option ExecutionStatus) = none ↔
      FinalityStatus.Rejected = .Received ∨
        FinalityStatus.Rejected = .Rejected :=
  get_transaction_status_output_invariant
    (gwOnlyContext ⟨.AcceptedOnL2, .Rejected⟩) feltZero
    { finality_status := .Rejected, execution_status := none } rfl

/-! ## Claim theorems: receipt data model and protobuf (C5-C8) -/

/-- C5 counterexample: `DeclareTransactionReceipt` consists of the common
fields alone — no two declare receipts agree on `common` yet differ — so
it carries no class-hash field, refuting "a receipt for a declare
transaction carries the resulting class hash". -/
theorem declare_receipt_has_no_class_hash :
    ¬ ∃ r₁ r₂ : DeclareTransactionReceipt,
      r₁.common = r₂.common ∧ r₁ ≠ r₂ := by
  rintro ⟨⟨c₁⟩, ⟨c₂⟩, hc, hne⟩
  cases hc
  exact hne rfl

/-- C5 (amended): a receipt for a deploy or deploy-account transaction
carries the resulting contract address in addition to the common fields;
a declare receipt carries only the common receipt fields and no class
hash. -/
theorem receipt_payload_fields :
    (∀ (c : ReceiptCommon) (a : Felt),
      (DeployTransactionReceipt.mk c a).common = c ∧
      (DeployTransactionReceipt.mk c a).contract_address = a) ∧
    (∀ (c : ReceiptCommon) (a : Felt),
      (DeployAccountTransactionReceipt.mk c a).common = c ∧
      (DeployAccountTransactionReceipt.mk c a).contract_address = a) ∧
    (∀ r₁ r₂ : DeclareTransactionReceipt,
      r₁.common = r₂.common → r₁ = r₂) := by
  refine ⟨fun c a => ⟨rfl, rfl⟩, fun c a => ⟨rfl, rfl⟩, ?_⟩
  rintro ⟨c₁⟩ ⟨c₂⟩ hc
  cases hc
  rfl

/-- C5 witness: the amended theorem applied at concrete receipts. -/
theorem receipt_payload_fields_witness :
    (DeployTransactionReceipt.mk (sampleCommon "") feltOne).contract_address
        = feltOne ∧
      DeclareTransactionReceipt.mk (sampleCommon "")
        = DeclareTransactionReceipt.mk (sampleCommon "") :=
  ⟨(receipt_payload_fields.1 (sampleCommon "") feltOne).2,
   receipt_payload_fields.2.2 ⟨sampleCommon ""⟩ ⟨sampleCommon ""⟩ rfl⟩

/-- C6 counterexample: `revert_reason` is an unconditional `String` field
and the receipt records no execution status: a receipt agreeing with a
successful receipt on every other field may still carry a non-empty
revert reason, so presence of the reason is not an iff with reverted
execution. -/
theorem revert_reason_not_tied_to_outcome :
    ∃ r : ReceiptCommon, r.revert_reason ≠ "" ∧
      r.transaction_hash = (sampleCommon "").transaction_hash ∧
      r.actual_fee = (sampleCommon "").actual_fee ∧
      r.messages_sent = (sampleCommon "").messages_sent ∧
      r.execution_resources = (sampleCommon "").execution_resources :=
  ⟨sampleCommon "assert failed", by decide, rfl, rfl, rfl, rfl⟩

/-- C6 (amended): `revert_reason` is an always-present `String` field of
every receipt, unconstrained by and independent of all other receipt
fields; the receipt carries no execution-status flag, the empty string
standing for a successful execution. -/
theorem revert_reason_always_present (c : ReceiptCommon) (s : String) :
    ∃ c' : ReceiptCommon, c'.revert_reason = s ∧
      c'.transaction_hash = c.transaction_hash ∧
      c'.actual_fee = c.actual_fee ∧
      c'.messages_sent = c.messages_sent ∧
      c'.execution_resources = c.execution_resources :=
  ⟨{ c with revert_reason := s }, rfl, rfl, rfl, rfl, rfl⟩

/-- C7: receipt protobuf serialization round-trips for every receipt and
field name, and the `Deploy` variant travels as the wire's
`DeprecatedDeploy` arm in both directions. -/
theorem receipt_protobuf_roundtrip :
    (∀ (r : Receipt) (field_name : String),
      Receipt.try_from_protobuf (Receipt.to_protobuf r) field_name
        = .ok r) ∧
    (∀ d : DeployTransactionReceipt,
      (Receipt.to_protobuf (Receipt.Deploy d)).type
        = some (proto.ReceiptType.DeprecatedDeploy d.to_protobuf)) ∧
    (∀ (d : DeployTransactionReceipt) (field_name : String),
      Receipt.try_from_protobuf
          ⟨some (proto.ReceiptType.DeprecatedDeploy d.to_protobuf)⟩
          field_name
        = .ok (Receipt.Deploy d)) := by
  refine ⟨receipt_try_from_to_protobuf, fun d => rfl, fun d field_name => ?_⟩
  simp [Receipt.try_from_protobuf, proto_field_some,
    deploy_receipt_try_from_to_protobuf, except_bind_ok, except_pure_eq]

/-- C8: `EthereumAddress.try_from_protobuf` is total: it returns `Ok`
exactly when the elements vector has the `H160` length of 20 bytes and an
`InvalidData` error naming the field otherwise; the `H160::from_slice`
panic is modelled as a proof obligation discharged by the length check. -/
theorem ethereum_address_try_from_total (input : proto.EthereumAddressMsg)
    (field_name : String) :
    (∀ h : input.elements.length = H160.len_bytes,
      EthereumAddress.try_from_protobuf input field_name =
        .ok ⟨H160.from_slice input.elements h⟩) ∧
    (input.elements.length ≠ H160.len_bytes →
      EthereumAddress.try_from_protobuf input field_name =
        .error ⟨.InvalidData,
          "Invalid length for Ethereum address " ++ field_name⟩) := by
  constructor
  · intro h
    unfold EthereumAddress.try_from_protobuf
    rw [dif_neg (not_ne_iff.mpr h)]
  · intro h
    unfold EthereumAddress.try_from_protobuf
    rw [dif_pos h]

/-- C8 witness: a 20-byte vector decodes, the empty vector is rejected
with `InvalidData`. -/
theorem ethereum_address_try_from_total_witness :
    EthereumAddress.try_from_protobuf ⟨List.replicate 20 0⟩ "to_address" =
        .ok ⟨H160.from_slice (List.replicate 20 0) (by decide)⟩ ∧
      EthereumAddress.try_from_protobuf ⟨[]⟩ "to_address" =
        .error ⟨.InvalidData,
          "Invalid length for Ethereum address " ++ "to_address"⟩ :=
  ⟨(ethereum_address_try_from_total ⟨List.replicate 20 0⟩ "to_address").1
      (by decide),
   (ethereum_address_try_from_total ⟨[]⟩ "to_address").2 (by decide)⟩

/-! ## Claim theorems: Felt and variant taxonomy (C9-C10) -/

/-- C9: a 32-byte big-endian input below the field modulus converts to a
`Felt` and back to exactly the same bytes; an input whose value reaches
the modulus is rejected with `OutOfRange`. -/
theorem felt_byte_roundtrip (bs : List UInt8) (hlen : bs.length = 32) :
    (beBytesToNat bs < FELT_PRIME →
      ∃ f : Felt, felt_from_be_bytes bs = .ok f ∧ f.to_be_bytes = bs) ∧
    (FELT_PRIME ≤ beBytesToNat bs →
      felt_from_be_bytes bs = .error .OutOfRange) := by
  constructor
  · intro h
    refine ⟨⟨beBytesToNat bs, h⟩, ?_, ?_⟩
    · unfold felt_from_be_bytes
      rw [dif_pos h]
    · show natToBeBytes 32 (beBytesToNat bs) = bs
      rw [← hlen]
      exact natToBeBytes_beBytesToNat bs
  · intro h
    unfold felt_from_be_bytes
    rw [dif_neg (not_lt.mpr h)]

/-- C9 witness: the all-zero 32-byte array round-trips. -/
theorem felt_byte_roundtrip_witness :
    ∃ f : Felt, felt_from_be_bytes (List.replicate 32 0) = .ok f ∧
      f.to_be_bytes = List.replicate 32 0 :=
  (felt_byte_roundtrip (List.replicate 32 0) (by decide)).1 (by decide)

/-- Modelled from the spec: the transaction-kind taxonomy
{Invoke, Declare, Deploy, DeployAccount, L1Handler}. -/
inductive TransactionKind where
  | Invoke
  | Declare
  | Deploy
  | DeployAccount
  | L1Handler
  deriving DecidableEq

def Receipt.kind : Receipt → TransactionKind
  | .Invoke _ => .Invoke
  | .Declare _ => .Declare
  | .Deploy _ => .Deploy
  | .DeployAccount _ => .DeployAccount
  | .L1Handler _ => .L1Handler

/-- C10: the `Receipt` enum is polymorphic over exactly the five
transaction kinds: every receipt is one of the five variants, every kind
is realized by a receipt, and each variant maps to its own kind. -/
theorem receipt_variants_exactly_five :
    (∀ r : Receipt,
      (∃ x, r = Receipt.Invoke x) ∨ (∃ x, r = Receipt.Declare x) ∨
      (∃ x, r = Receipt.Deploy x) ∨ (∃ x, r = Receipt.DeployAccount x) ∨
      (∃ x, r = Receipt.L1Handler x)) ∧
    (∀ k : TransactionKind, ∃ r : Receipt, Receipt.kind r = k) ∧
    (∀ x, Receipt.kind (Receipt.Invoke x) = TransactionKind.Invoke) ∧
    (∀ x, Receipt.kind (Receipt.Declare x) = TransactionKind.Declare) ∧
    (∀ x, Receipt.kind (Receipt.Deploy x) = TransactionKind.Deploy) ∧
    (∀ x, Receipt.kind (Receipt.DeployAccount x)
      = TransactionKind.DeployAccount) ∧
    (∀ x, Receipt.kind (Receipt.L1Handler x) = TransactionKind.L1Handler) := by
  refine ⟨?_, ?_, fun x => rfl, fun x => rfl, fun x => rfl, fun x => rfl,
    fun x => rfl⟩
  · intro r
    cases r with
    | Invoke x => exact Or.inl ⟨x, rfl⟩
    | Declare x => exact Or.inr (Or.inl ⟨x, rfl⟩)
    | Deploy x => exact Or.inr (Or.inr (Or.inl ⟨x, rfl⟩))
    | DeployAccount x => exact Or.inr (Or.inr (Or.inr (Or.inl ⟨x, rfl⟩)))
    | L1Handler x => exact Or.inr (Or.inr (Or.inr (Or.inr ⟨x, rfl⟩)))
  · intro k
    cases k with
    | Invoke => exact ⟨Receipt.Invoke ⟨sampleCommon ""⟩, rfl⟩
    | Declare => exact ⟨Receipt.Declare ⟨sampleCommon ""⟩, rfl⟩
    | Deploy => exact ⟨Receipt.Deploy ⟨sampleCommon "", feltZero⟩, rfl⟩
    | DeployAccount =>
      exact ⟨Receipt.DeployAccount ⟨sampleCommon "", feltZero⟩, rfl⟩
    | L1Handler =>
      exact ⟨Receipt.L1Handler ⟨sampleCommon "", hashZero⟩, rfl⟩
